import Mathlib

/-!
Shallow embedding of the UniPi Neuron Evok integration
(`custom_components/unipi_neuron`): the state cache and every code path that
writes it (the event ingestion loop of `evok_connection`, the supplementary
REST fetch `fetch_rest_all`, and the light entity command handlers), together
with an action-trace model of the reconnection supervisor loop in
`evok_connection` and of `async_unload_entry`, and the input-device-type
detection helper from `evok_utils.py`.

Python dicts are embedded as association lists in insertion order; dict
assignment updates a present binding in place and appends an absent one, so
iteration order is preserved exactly as in CPython.
-/

namespace UnipiNeuron

/-- Scalar JSON values as they appear in Evok messages: strings, integers,
booleans and JSON null. -/
inductive SVal where
  | null : SVal
  | b : Bool → SVal
  | i : Int → SVal
  | s : String → SVal
  deriving DecidableEq

/-- Python truthiness of a scalar value, as tested by `if device_type:`. -/
def SVal.truthy : SVal → Bool
  | .null => false
  | .b x => x
  | .i n => !(n == 0)
  | .s x => !(x == "")

/-- A device state record: a Python dict from field names to scalar values. -/
abbrev Record := List (String × SVal)

/-- A cache key: the (device-type, circuit) pair, both taken verbatim from the
message fields. -/
abbrev Address := SVal × SVal

/-- The state cache attached to `UnipiEvokWsClient` by `cache_getter`
(`__init__.py` lines 20-25): a Python dict from (device-type, circuit) to the
last stored record. -/
abbrev Cache := List (Address × Record)

/-- Python dict lookup `d.get(k)` on an association list. -/
def dictGet {α β : Type} [DecidableEq α] : List (α × β) → α → Option β
  | [], _ => none
  | (k1, v) :: rest, k => if k1 = k then some v else dictGet rest k

/-- Python dict assignment `d[k] = v`: updates the binding in place when the
key is present, appends it otherwise. -/
def dictSet {α β : Type} [DecidableEq α] : List (α × β) → α → β → List (α × β)
  | [], k, v => [(k, v)]
  | (k1, v1) :: rest, k, v =>
      if k1 = k then (k, v) :: rest else (k1, v1) :: dictSet rest k v

/-- Python dict removal `d.pop(k, None)` restricted to its effect on the
mapping: drops the binding for `k` when present. -/
def dictPop {α β : Type} [DecidableEq α] : List (α × β) → α → List (α × β)
  | [], _ => []
  | (k1, v1) :: rest, k => if k1 = k then rest else (k1, v1) :: dictPop rest k

/-- Python `message.get(field)` on a record: a JSON null value is returned as
Python `None`, indistinguishable from an absent field. -/
def pyGet (r : Record) (k : String) : Option SVal :=
  match dictGet r k with
  | some SVal.null => none
  | o => o

theorem dictGet_dictSet_self {α β : Type} [DecidableEq α]
    (l : List (α × β)) (k : α) (v : β) : dictGet (dictSet l k v) k = some v := by
  induction l with
  | nil => simp [dictGet, dictSet]
  | cons p rest ih =>
      obtain ⟨k1, v1⟩ := p
      by_cases h : k1 = k
      · simp [dictGet, dictSet, h]
      · simp [dictGet, dictSet, h, ih]

theorem dictGet_dictSet_ne {α β : Type} [DecidableEq α]
    (l : List (α × β)) (k a : α) (v : β) (h : a ≠ k) :
    dictGet (dictSet l k v) a = dictGet l a := by
  have hka : ¬k = a := fun hh => h hh.symm
  induction l with
  | nil => simp [dictGet, dictSet, hka]
  | cons p rest ih =>
      obtain ⟨k1, v1⟩ := p
      by_cases hk : k1 = k
      · subst hk
        simp [dictGet, dictSet, hka]
      · by_cases ha : k1 = a <;> simp [dictGet, dictSet, hk, ha, h, ih]

theorem dictGet_dictSet_ne_none {α β : Type} [DecidableEq α]
    (l : List (α × β)) (k a : α) (v : β) (h : dictGet l a ≠ none) :
    dictGet (dictSet l k v) a ≠ none := by
  by_cases hak : a = k
  · subst hak
    simp [dictGet_dictSet_self]
  · rw [dictGet_dictSet_ne l k a v hak]
    exact h

/-- One element of the data returned by `evok_receive`, after the line-93
normalization `messages = data if isinstance(data, list) else [data]`: either a
structured record (a dict) or a bare non-dict payload, on which `message.get`
raises `AttributeError`. -/
inductive Msg where
  | record : Record → Msg
  | scalar : SVal → Msg
  deriving DecidableEq

/-- One pass of the `for message in messages` body in `evok_connection`
(`__init__.py` lines 95-104): returns the new cache, the address a change
notification is dispatched for (if any), and `false` when the body raised (a
non-dict message has no `.get`, so field extraction raises and the surrounding
`except` clause breaks the loop). A message whose `dev` or `circuit` is absent
is skipped by `continue`, leaving the cache unchanged and dispatching nothing;
otherwise the whole message is assigned to `cache[(device, circuit)]`. -/
def processMessage (c : Cache) : Msg → Cache × Option Address × Bool
  | .record m =>
      match pyGet m "dev", pyGet m "circuit" with
      | some d, some ci => (dictSet c (d, ci) m, some (d, ci), true)
      | _, _ => (c, none, true)
  | .scalar _ => (c, none, false)

/-- The full `for message in messages` loop: messages are processed in order,
accumulating cache updates and dispatched notifications; an exception stops the
loop early and reports `false` (the ingestion loop then breaks). -/
def processMessages (c : Cache) : List Msg → Cache × List Address × Bool
  | [] => (c, [], true)
  | m :: rest =>
      match processMessage c m with
      | (c1, note, true) =>
          let r := processMessages c1 rest
          (r.1, note.toList ++ r.2.1, r.2.2)
      | (c1, _, false) => (c1, [], false)

/-- Body of the `for dev_info in data` loop of `fetch_rest_all` (`__init__.py`
lines 42-46): the entry is assigned to `cache[(device_type, circuit)]` when
`device_type` is truthy and `circuit` is not None, and skipped otherwise. -/
def restInsert (c : Cache) (dev_info : Record) : Cache :=
  match pyGet dev_info "dev", pyGet dev_info "circuit" with
  | some d, some ci => if d.truthy then dictSet c (d, ci) dev_info else c
  | _, _ => c

/-- The cache effect of `fetch_rest_all` (`__init__.py` lines 31-48): `none`
models the `except` branch (any network, timeout or parse failure of the GET on
`/rest/all`), which logs a warning and returns with the cache untouched;
otherwise each fetched entry is folded into the cache via `restInsert`. -/
def fetch_rest_all (fetched : Option (List Record)) (c : Cache) : Cache :=
  match fetched with
  | none => c
  | some data => data.foldl restInsert c

/-- The cache effect of `evok_full_state_sync_with_rest` (`__init__.py` lines
54-56): first the library's original `evok_full_state_sync` (an external
collaborator of this repository, passed here as an opaque cache transformer),
then the supplementary REST fetch. -/
def evok_full_state_sync_with_rest (primarySync : Cache → Cache)
    (fetched : Option (List Record)) (c : Cache) : Cache :=
  fetch_rest_all fetched (primarySync c)

/-- Outcome of one run of the inner receive loop of `evok_connection`
(`__init__.py` lines 89-121); the loop only ends by `break`: on a
`ConnectionClosedError`, on any other exception during receive or message
processing, or on falsy received data. -/
inductive IngestOutcome where
  | closed
  | procError
  | falsyData
  deriving DecidableEq

/-- Observable actions of the supervisor loop in `evok_connection`: closing the
transport, attempting a connect, sleeping the reconnect interval, starting the
full-state sync, and running the inner receive loop to its terminating
outcome. -/
inductive Act where
  | close
  | connectAttempt
  | sleep
  | syncStart
  | ingest : IngestOutcome → Act
  deriving DecidableEq

/-- Environment outcome of one outer-loop iteration of `evok_connection`: the
connect attempt returns falsy; or connect succeeds and `evok_full_state_sync`
raises; or connect and sync succeed and the inner receive loop runs until it
terminates with the given outcome. -/
inductive EnvEvent where
  | connectFail
  | syncRaise
  | session : IngestOutcome → EnvEvent
  deriving DecidableEq

/-- The supervisor loop of `evok_connection` (`__init__.py` lines 71-121),
unrolled along a finite script of environment outcomes, one per outer
iteration: returns the action trace and whether an exception escaped the
coroutine. `firstRun` is `initial_connected`; every iteration except a first
run starts with `evok_close`, then unconditionally attempts a connect. On a
falsy connect the loop logs, sleeps the reconnect interval and continues; on a
sync exception nothing catches it, so the trace ends and the exception escapes;
otherwise the receive loop runs to its outcome and the loop continues. The
`while True` loop has no exit path: an exhausted script means it is still
running. -/
def supervisorRun : Bool → List EnvEvent → List Act × Bool
  | _, [] => ([], false)
  | firstRun, e :: rest =>
      let pre : List Act := if firstRun then [] else [.close]
      match e with
      | .connectFail =>
          let r := supervisorRun false rest
          (pre ++ [.connectAttempt, .sleep] ++ r.1, r.2)
      | .syncRaise => (pre ++ [.connectAttempt, .syncStart], true)
      | .session o =>
          let r := supervisorRun false rest
          (pre ++ [.connectAttempt, .syncStart, .ingest o] ++ r.1, r.2)

/-- Does this environment event make `evok_full_state_sync` raise? -/
def eventRaises : EnvEvent → Bool
  | .syncRaise => true
  | _ => false

/-- Is this environment event a failed connect attempt? -/
def isConnectFail : EnvEvent → Bool
  | .connectFail => true
  | _ => false

/-- Checks that every `ingest` action in a trace is immediately followed by a
`close` (or ends the trace): the supervisor reacts to ingestion-loop
termination by closing the transport first. -/
def ingestFollowedByClose : List Act → Bool
  | .ingest _ :: a :: rest => a == Act.close && ingestFollowedByClose (a :: rest)
  | _ :: rest => ingestFollowedByClose rest
  | [] => true

/-- `async_unload_entry` (`__init__.py` lines 170-176) as it affects the
session store and the supervisor: pop the session and, when one was stored,
await `evok_close` on it. It performs no other action toward the supervisor
task — it sets no stop flag and cancels nothing. -/
def async_unload_entry (store : List (String × Cache)) (entryId : String) :
    List (String × Cache) × List Act :=
  match dictGet store entryId with
  | some _ => (dictPop store entryId, [Act.close])
  | none => (store, [])

/-- The entity-local fields of a `UnipiLight` touched by its command handlers:
`_brightness` (None for on_off lights) and `_state`. -/
structure LightState where
  brightness : Option Nat
  isOn : Bool
  deriving DecidableEq

/-- Python's `round(new_brightness / 255 * 100)` for a natural brightness: the
exact value 20*b/51 is never a half-integer (40*b + 51 is odd, never divisible
by 102), so round-half-to-even coincides with rounding to the nearest integer,
computed here as floor((40*b + 51) / 102). -/
def pwm_duty (b : Nat) : Nat := (40 * b + 51) / 102

/-- `UnipiLight.async_turn_on` (`light.py` lines 102-128) as it affects the hub
cache and the entity fields. `sendOk = false` models a `ConnectionClosedError`
raised by `evok_send`: the handler catches it, and nothing after the send runs,
so the cache write and field updates are skipped. On a successful send the
handler assigns a fresh one-field record to `cache[(device, circuit)]`. -/
def async_turn_on (c : Cache) (device circuit : SVal) (dimmable : Bool)
    (st : LightState) (kwargsBrightness : Option Nat) (sendOk : Bool) :
    Cache × LightState :=
  if sendOk then
    if dimmable then
      let new_brightness := kwargsBrightness.getD 255
      (dictSet c (device, circuit) [("value", .i (pwm_duty new_brightness))],
       { brightness := some new_brightness, isOn := true })
    else
      (dictSet c (device, circuit) [("value", .i 1)], { st with isOn := true })
  else (c, st)

/-- `UnipiLight.async_turn_off` (`light.py` lines 130-151), modelled like
`async_turn_on`: both branches assign `{'value': 0}` to the cache on a
successful send. -/
def async_turn_off (c : Cache) (device circuit : SVal) (dimmable : Bool)
    (st : LightState) (sendOk : Bool) : Cache × LightState :=
  if sendOk then
    if dimmable then
      (dictSet c (device, circuit) [("value", .i 0)],
       { brightness := some 0, isOn := false })
    else
      (dictSet c (device, circuit) [("value", .i 0)], { st with isOn := false })
  else (c, st)

/-- `EVOK_INPUT_DEVICE_TYPES` from `evok_utils.py` line 1. -/
def EVOK_INPUT_DEVICE_TYPES : List SVal := [.s "input", .s "di"]

/-- The membership test `device in EVOK_INPUT_DEVICE_TYPES`. -/
def isInputDev (v : SVal) : Bool := v == .s "input" || v == .s "di"

/-- `detect_input_device_types` (`evok_utils.py` lines 5-15): look at the first
cache key (a nonempty tuple, hence truthy whenever the cache is nonempty); if
its device-type is a known input type return just it; otherwise scan all keys
in iteration order for the first known input type; fall back to the full
default tuple. -/
def detect_input_device_types (cache : Cache) : List SVal :=
  match cache with
  | [] => EVOK_INPUT_DEVICE_TYPES
  | ((d, _), _) :: _ =>
      if isInputDev d then [d]
      else
        match cache.find? (fun e => isInputDev e.1.1) with
        | some e => [e.1.1]
        | none => EVOK_INPUT_DEVICE_TYPES

theorem processMessage_record_ok (c : Cache) (m : Record) :
    (processMessage c (.record m)).2.2 = true := by
  rcases hd : pyGet m "dev" with _ | d <;>
    rcases hc : pyGet m "circuit" with _ | ci <;>
      simp [processMessage, hd, hc]

/-- C1 is false on the code: the ingestion loop assigns the whole message to
the cache slot instead of merging it, so a field ("alias") present in the first
structured update to an address and absent from the second is gone from the
final record, although the claimed union semantics would keep it. -/
theorem C1_counterexample :
    dictGet (processMessages []
        [Msg.record [("dev", SVal.s "relay"), ("circuit", SVal.s "1"),
                     ("value", SVal.i 1), ("alias", SVal.s "al_x")],
         Msg.record [("dev", SVal.s "relay"), ("circuit", SVal.s "1"),
                     ("value", SVal.i 0)]]).1 (SVal.s "relay", SVal.s "1")
      = some [("dev", SVal.s "relay"), ("circuit", SVal.s "1"), ("value", SVal.i 0)]
    ∧ pyGet [("dev", SVal.s "relay"), ("circuit", SVal.s "1"), ("value", SVal.i 0)]
        "alias" = none
    ∧ pyGet [("dev", SVal.s "relay"), ("circuit", SVal.s "1"),
             ("value", SVal.i 1), ("alias", SVal.s "al_x")] "alias"
        = some (SVal.s "al_x") := by
  decide

/-- C1 (amended): a structured update whose `dev` and `circuit` are present
replaces the cache record for its address with the entire message, so after any
sequence of structured updates the record for an address equals the last
message addressed to it; fields of earlier payloads absent from the last one
are dropped rather than kept. -/
theorem C1_last_message_wins (c : Cache) (pre : List Record) (m : Record)
    (d ci : SVal) (hd : pyGet m "dev" = some d)
    (hc : pyGet m "circuit" = some ci) :
    dictGet (processMessages c (pre.map Msg.record ++ [Msg.record m])).1 (d, ci)
      = some m := by
  induction pre generalizing c with
  | nil => simp [processMessages, processMessage, hd, hc, dictGet_dictSet_self]
  | cons r pre ih =>
      rcases hp : processMessage c (.record r) with ⟨c1, note, ok⟩
      have hok : ok = true := by
        have h := processMessage_record_ok c r
        rw [hp] at h
        exact h
      subst hok
      simp only [List.map_cons, List.cons_append, processMessages, hp]
      exact ih c1

theorem C1_last_message_wins_witness :
    dictGet (processMessages []
        ([[("dev", SVal.s "relay"), ("circuit", SVal.s "1"),
           ("alias", SVal.s "al_x")]].map Msg.record
          ++ [Msg.record [("dev", SVal.s "relay"), ("circuit", SVal.s "1"),
                          ("value", SVal.i 0)]])).1 (SVal.s "relay", SVal.s "1")
      = some [("dev", SVal.s "relay"), ("circuit", SVal.s "1"),
              ("value", SVal.i 0)] :=
  C1_last_message_wins []
    [[("dev", SVal.s "relay"), ("circuit", SVal.s "1"), ("alias", SVal.s "al_x")]]
    [("dev", SVal.s "relay"), ("circuit", SVal.s "1"), ("value", SVal.i 0)]
    (SVal.s "relay") (SVal.s "1") rfl rfl

/-- C2 is false on the code: `fetch_rest_all` assigns each fetched entry to the
cache slot wholesale, so the "alias" field known from the prior record is
deleted by a fetched record that lacks it, although the claimed shallow-merge
semantics would preserve it. -/
theorem C2_counterexample :
    dictGet (fetch_rest_all
        (some [[("dev", SVal.s "relay"), ("circuit", SVal.s "1"),
                ("value", SVal.i 0)]])
        [((SVal.s "relay", SVal.s "1"),
          [("value", SVal.i 1), ("alias", SVal.s "al_k")])])
      (SVal.s "relay", SVal.s "1")
      = some [("dev", SVal.s "relay"), ("circuit", SVal.s "1"), ("value", SVal.i 0)]
    ∧ pyGet [("dev", SVal.s "relay"), ("circuit", SVal.s "1"), ("value", SVal.i 0)]
        "alias" = none
    ∧ pyGet [("value", SVal.i 1), ("alias", SVal.s "al_k")] "alias"
        = some (SVal.s "al_k") := by
  decide

/-- C2 (amended): the bulk fetch is a per-key full replacement, not a shallow
merge: after the fetch, the record for an address equals the last fetched entry
for that address verbatim, whatever the prior record contained. -/
theorem C2_replace_wholesale (c : Cache) (pre : List Record) (di : Record)
    (d ci : SVal) (hd : pyGet di "dev" = some d) (ht : d.truthy = true)
    (hc : pyGet di "circuit" = some ci) :
    dictGet (fetch_rest_all (some (pre ++ [di])) c) (d, ci) = some di := by
  simp [fetch_rest_all, List.foldl_append, restInsert, hd, hc, ht,
    dictGet_dictSet_self]

theorem C2_replace_wholesale_witness :
    dictGet (fetch_rest_all
        (some ([[("dev", SVal.s "ai"), ("circuit", SVal.s "2")]] ++
          [[("dev", SVal.s "relay"), ("circuit", SVal.s "1"), ("value", SVal.i 0)]]))
        [((SVal.s "relay", SVal.s "1"),
          [("value", SVal.i 1), ("alias", SVal.s "al_k")])])
      (SVal.s "relay", SVal.s "1")
      = some [("dev", SVal.s "relay"), ("circuit", SVal.s "1"), ("value", SVal.i 0)] :=
  C2_replace_wholesale _ _ _ (SVal.s "relay") (SVal.s "1") rfl rfl rfl

/-- C3 is false on the code: a bare scalar payload is never interpreted as a
"value"-only update. Field extraction on a non-dict raises, the exception
handler breaks the loop, and the cache is left untouched: no `{value: scalar}`
record is created for an empty cache, and an existing record's "value" field is
not updated either. -/
theorem C3_counterexample :
    (processMessages [] [Msg.scalar (SVal.i 5)]).1 = ([] : Cache)
    ∧ processMessages [((SVal.s "relay", SVal.s "1"), [("value", SVal.i 1)])]
        [Msg.scalar (SVal.i 5)]
      = ([((SVal.s "relay", SVal.s "1"), [("value", SVal.i 1)])], [], false) := by
  decide

/-- C3 (amended): a bare scalar update is not merged at all: the ingestion loop
treats it as an unexpected processing error — the cache is left exactly as it
was at every address, no notification is emitted, and the receive loop
terminates. -/
theorem C3_scalar_update_aborts (c : Cache) (v : SVal) (rest : List Msg) :
    processMessages c (Msg.scalar v :: rest) = (c, [], false) := rfl

/-- C4: an update with `dev` or `circuit` absent (or JSON null) is skipped by
`continue`: processing the stream with it is identical to processing the
stream without it — same final cache, same notifications, same loop status. -/
theorem C4_malformed_update_skipped (c : Cache) (m : Record) (rest : List Msg)
    (h : pyGet m "dev" = none ∨ pyGet m "circuit" = none) :
    processMessages c (Msg.record m :: rest) = processMessages c rest := by
  have hpm : processMessage c (.record m) = (c, none, true) := by
    rcases hd : pyGet m "dev" with _ | d <;>
      rcases hc : pyGet m "circuit" with _ | ci <;>
        simp_all [processMessage]
  simp [processMessages, hpm]

theorem C4_malformed_update_skipped_witness :
    processMessages [] [Msg.record [("circuit", SVal.s "1"), ("value", SVal.i 1)]]
      = processMessages [] [] :=
  C4_malformed_update_skipped [] [("circuit", SVal.s "1"), ("value", SVal.i 1)] []
    (Or.inl rfl)

theorem ifc_close (l : List Act) :
    ingestFollowedByClose (Act.close :: l) = ingestFollowedByClose l := rfl

theorem ifc_connectAttempt (l : List Act) :
    ingestFollowedByClose (Act.connectAttempt :: l) = ingestFollowedByClose l := rfl

theorem ifc_sleep (l : List Act) :
    ingestFollowedByClose (Act.sleep :: l) = ingestFollowedByClose l := rfl

theorem ifc_syncStart (l : List Act) :
    ingestFollowedByClose (Act.syncStart :: l) = ingestFollowedByClose l := rfl

theorem ifc_ingest_cons (o : IngestOutcome) (a : Act) (l : List Act) :
    ingestFollowedByClose (Act.ingest o :: a :: l)
      = (a == Act.close && ingestFollowedByClose (a :: l)) := rfl

theorem ifc_ingest_nil (o : IngestOutcome) :
    ingestFollowedByClose [Act.ingest o] = true := rfl

theorem supervisorRun_false_head (script : List EnvEvent) :
    (supervisorRun false script).1 = []
    ∨ ∃ t, (supervisorRun false script).1 = Act.close :: t := by
  cases script with
  | nil => exact Or.inl rfl
  | cons e rest => cases e <;> exact Or.inr ⟨_, rfl⟩

/-- C5 is false on the code: in a run where the ingestion loop terminates (here
by connection closure) and the following connect attempt succeeds, the
supervisor closes the transport and immediately attempts the next connect — no
sleep action occurs anywhere in the trace, although the claim requires a
reconnect-interval sleep between the close and the connect. -/
theorem C5_counterexample :
    (supervisorRun true [EnvEvent.session IngestOutcome.closed,
        EnvEvent.session IngestOutcome.closed]).1
      = [Act.connectAttempt, Act.syncStart, Act.ingest IngestOutcome.closed,
         Act.close, Act.connectAttempt, Act.syncStart,
         Act.ingest IngestOutcome.closed]
    ∧ Act.sleep ∉ (supervisorRun true [EnvEvent.session IngestOutcome.closed,
        EnvEvent.session IngestOutcome.closed]).1 := by
  decide

/-- C5 (amended): on ingestion-loop termination the supervisor closes the
transport and immediately retries the connect; the reconnect-interval sleep
happens exactly once per failed connect attempt and never between an ingestion
termination and the next connect attempt: in any run without a sync exception,
the number of sleeps equals the number of failed connect attempts, and every
ingestion termination is immediately followed by a transport close (or ends the
observed trace). -/
theorem C5_sleep_only_after_failed_connect (firstRun : Bool)
    (script : List EnvEvent) (h : script.any eventRaises = false) :
    List.countP (fun a => a == Act.sleep) (supervisorRun firstRun script).1
      = List.countP (fun e => isConnectFail e) script
    ∧ ingestFollowedByClose (supervisorRun firstRun script).1 = true := by
  induction script generalizing firstRun with
  | nil =>
      cases firstRun <;> exact ⟨rfl, rfl⟩
  | cons e rest ih =>
      rw [List.any_cons, Bool.or_eq_false_iff] at h
      obtain ⟨ihc, ihf⟩ := ih false h.2
      cases e with
      | connectFail =>
          cases firstRun <;>
            simp [supervisorRun, List.countP_append, List.countP_cons,
              isConnectFail, ifc_close, ifc_connectAttempt, ifc_sleep, ihc, ihf,
              Nat.add_comm]
      | syncRaise => simp [eventRaises] at h
      | session o =>
          constructor
          · cases firstRun <;>
              simp [supervisorRun, List.countP_append, List.countP_cons,
                isConnectFail, ihc]
          · have ihf2 := ihf
            rcases supervisorRun_false_head rest with hnil | ⟨t, ht⟩
            · cases firstRun <;>
                simp [supervisorRun, hnil, ifc_close, ifc_connectAttempt,
                  ifc_syncStart, ifc_ingest_nil]
            · rw [ht, ifc_close] at ihf2
              cases firstRun <;>
                simp [supervisorRun, ht, ifc_close, ifc_connectAttempt,
                  ifc_syncStart, ifc_ingest_cons, ihf2]

theorem C5_sleep_only_after_failed_connect_witness :
    List.countP (fun a => a == Act.sleep)
        (supervisorRun true
          [EnvEvent.connectFail, EnvEvent.session IngestOutcome.closed]).1
      = List.countP (fun e => isConnectFail e)
          [EnvEvent.connectFail, EnvEvent.session IngestOutcome.closed]
    ∧ ingestFollowedByClose
        (supervisorRun true
          [EnvEvent.connectFail, EnvEvent.session IngestOutcome.closed]).1
      = true :=
  C5_sleep_only_after_failed_connect true
    [EnvEvent.connectFail, EnvEvent.session IngestOutcome.closed] rfl

/-- C6 is false on the code: `evok_full_state_sync` is awaited outside the
`try` block of the ingestion loop, so an exception it raises after a
successful connect escapes `evok_connection` (the second component of the run
is `true`: the coroutine ended with an uncaught exception instead of
reconnecting). -/
theorem C6_counterexample :
    supervisorRun true [EnvEvent.syncRaise]
      = ([Act.connectAttempt, Act.syncStart], true) := by
  decide

/-- C6 (amended): errors during receive and message processing never escape
the supervisor — the coroutine ends with an uncaught exception exactly when
some iteration's full-state sync raises; every other script, whatever mix of
connect failures and ingestion terminations it contains, leaves the loop
running. -/
theorem C6_escape_iff_sync_raises (firstRun : Bool) (script : List EnvEvent) :
    (supervisorRun firstRun script).2 = script.any eventRaises := by
  induction script generalizing firstRun with
  | nil => rfl
  | cons e rest ih =>
      cases e <;>
        simp [supervisorRun, List.any_cons, eventRaises, ih false]

theorem countP_connectAttempt_supervisorRun (firstRun : Bool)
    (script : List EnvEvent) (h : script.any eventRaises = false) :
    List.countP (fun a => a == Act.connectAttempt) (supervisorRun firstRun script).1
      = script.length := by
  induction script generalizing firstRun with
  | nil => cases firstRun <;> rfl
  | cons e rest ih =>
      rw [List.any_cons, Bool.or_eq_false_iff] at h
      cases e with
      | connectFail =>
          cases firstRun <;>
            simp [supervisorRun, List.countP_append, List.countP_cons,
              ih false h.2]
      | syncRaise => simp [eventRaises] at h
      | session o =>
          cases firstRun <;>
            simp [supervisorRun, List.countP_append, List.countP_cons,
              ih false h.2]

/-- C7 is false on the code: `async_unload_entry` only pops the session and
closes the transport (no stop signal exists anywhere), and the supervisor, when
its receive is unblocked by that closure, breaks the inner loop and then
reconnects — the trace shows a second connect attempt after the
closure-terminated ingestion instead of a loop exit. -/
theorem C7_counterexample :
    async_unload_entry [("entry1", [])] "entry1" = ([], [Act.close])
    ∧ supervisorRun true
        [EnvEvent.session IngestOutcome.closed, EnvEvent.connectFail]
      = ([Act.connectAttempt, Act.syncStart, Act.ingest IngestOutcome.closed,
          Act.close, Act.connectAttempt, Act.sleep], false) :=
  ⟨rfl, by decide⟩

/-- C7 (amended): session teardown forces transport closure and nothing else —
every action it performs toward the supervisor is a close, and no stop signal
exists. The supervisor interprets the unblocked receive as a normal disconnect
and keeps reconnecting: in any run without a sync exception it performs one
connect attempt per outer iteration, so the supervisor task does not terminate
after teardown. -/
theorem C7_teardown_only_closes_and_supervisor_reconnects
    (store : List (String × Cache)) (eid : String) (firstRun : Bool)
    (script : List EnvEvent) (h : script.any eventRaises = false) :
    (∀ a ∈ (async_unload_entry store eid).2, a = Act.close)
    ∧ List.countP (fun a => a == Act.connectAttempt)
        (supervisorRun firstRun script).1 = script.length := by
  constructor
  · intro a ha
    unfold async_unload_entry at ha
    rcases hg : dictGet store eid with _ | c0 <;> rw [hg] at ha
    · simp at ha
    · simpa using ha
  · exact countP_connectAttempt_supervisorRun firstRun script h

theorem C7_teardown_only_closes_and_supervisor_reconnects_witness :
    (∀ a ∈ (async_unload_entry [("entry1", [])] "entry1").2, a = Act.close)
    ∧ List.countP (fun a => a == Act.connectAttempt)
        (supervisorRun true
          [EnvEvent.session IngestOutcome.closed, EnvEvent.connectFail]).1
      = [EnvEvent.session IngestOutcome.closed, EnvEvent.connectFail].length :=
  C7_teardown_only_closes_and_supervisor_reconnects [("entry1", [])] "entry1"
    true [EnvEvent.session IngestOutcome.closed, EnvEvent.connectFail] rfl

theorem dictGet_restInsert_ne_none (c : Cache) (di : Record) (a : Address)
    (h : dictGet c a ≠ none) : dictGet (restInsert c di) a ≠ none := by
  unfold restInsert
  rcases pyGet di "dev" with _ | d
  · exact h
  · rcases pyGet di "circuit" with _ | ci
    · exact h
    · by_cases ht : d.truthy = true
      · simp only [ht, if_true]
        exact dictGet_dictSet_ne_none c (d, ci) a di h
      · simp only [Bool.not_eq_true] at ht
        simp only [ht, Bool.false_eq_true, if_false]
        exact h

theorem dictGet_foldl_restInsert_ne_none (data : List Record) (c : Cache)
    (a : Address) (h : dictGet c a ≠ none) :
    dictGet (data.foldl restInsert c) a ≠ none := by
  induction data generalizing c with
  | nil => exact h
  | cons di rest ih =>
      exact ih (restInsert c di) (dictGet_restInsert_ne_none c di a h)

/-- C8: a failing supplementary fetch is absorbed inside the combined sync and
costs no entries — for every address populated by the primary full-state
exchange (the library sync, taken as an opaque parameter), the cache after
`evok_full_state_sync_with_rest` still holds a record, whatever the
supplementary fetch returned, including the total-failure case `none`; the
fetch never removes a key either. -/
theorem C8_primary_entries_survive_fetch_failure (primarySync : Cache → Cache)
    (fetched : Option (List Record)) (c : Cache) (a : Address)
    (h : dictGet (primarySync c) a ≠ none) :
    dictGet (evok_full_state_sync_with_rest primarySync fetched c) a ≠ none := by
  unfold evok_full_state_sync_with_rest fetch_rest_all
  cases fetched with
  | none => exact h
  | some data => exact dictGet_foldl_restInsert_ne_none data (primarySync c) a h

theorem C8_primary_entries_survive_fetch_failure_witness :
    dictGet (evok_full_state_sync_with_rest
        (fun _ => [((SVal.s "ai", SVal.s "1"), [("value", SVal.i 3)])]) none [])
      (SVal.s "ai", SVal.s "1") ≠ none :=
  C8_primary_entries_survive_fetch_failure
    (fun _ => [((SVal.s "ai", SVal.s "1"), [("value", SVal.i 3)])]) none []
    (SVal.s "ai", SVal.s "1") (by decide)

/-- C9 is false on the code: the light entity's `async_turn_on` — an external
observer's command handler — writes the State Cache directly after a
successful send: starting from an empty cache, turning a non-dimmable light on
leaves a fresh `{value: 1}` record, so the cache is not mutated exclusively by
the supervisor task. -/
theorem C9_counterexample :
    (async_turn_on [] (SVal.s "relay") (SVal.s "1") false
        ⟨none, false⟩ none true).1
      = [((SVal.s "relay", SVal.s "1"), [("value", SVal.i 1)])]
    ∧ (async_turn_on [] (SVal.s "relay") (SVal.s "1") false
        ⟨none, false⟩ none true).1 ≠ ([] : Cache) := by
  decide

/-- C9 (amended): the State Cache is written not only by the supervisor task:
the light command handlers mutate it too — on every successful send,
`async_turn_on` stores `{value: 1}` (on_off mode) or `{value: duty}` (dimmable
mode) and `async_turn_off` stores `{value: 0}` at the light's address,
replacing whatever record was there. -/
theorem C9_command_handlers_write_cache (c : Cache) (d ci : SVal)
    (st : LightState) (kb : Option Nat) (dim : Bool) :
    dictGet (async_turn_on c d ci false st kb true).1 (d, ci)
      = some [("value", SVal.i 1)]
    ∧ dictGet (async_turn_on c d ci true st kb true).1 (d, ci)
      = some [("value", SVal.i (pwm_duty (kb.getD 255)))]
    ∧ dictGet (async_turn_off c d ci dim st true).1 (d, ci)
      = some [("value", SVal.i 0)] := by
  refine ⟨?_, ?_, ?_⟩
  · simp [async_turn_on, dictGet_dictSet_self]
  · simp [async_turn_on, dictGet_dictSet_self]
  · cases dim <;> simp [async_turn_off, dictGet_dictSet_self]

/-- C10: `detect_input_device_types` always returns a non-empty list whose
elements are all known input device-types; when the first cache key's
device-type qualifies the result is exactly that singleton; when it does not,
the result is the first qualifying device-type in iteration order; and when no
key qualifies the result is the full default tuple. -/
theorem C10_detect_input_device_types_spec (c : Cache) :
    (detect_input_device_types c ≠ []
      ∧ ∀ v ∈ detect_input_device_types c, isInputDev v = true)
    ∧ ((∀ e ∈ c, isInputDev e.1.1 = false) →
        detect_input_device_types c = EVOK_INPUT_DEVICE_TYPES)
    ∧ (∀ k r rest, c = (k, r) :: rest → isInputDev k.1 = true →
        detect_input_device_types c = [k.1])
    ∧ (∀ k r rest e, c = (k, r) :: rest → isInputDev k.1 = false →
        c.find? (fun x => isInputDev x.1.1) = some e →
        detect_input_device_types c = [e.1.1]) := by
  refine ⟨?_, ?_, ?_, ?_⟩
  · cases c with
    | nil => exact ⟨by decide, by decide⟩
    | cons p rest =>
        obtain ⟨⟨d, circ⟩, r⟩ := p
        by_cases hd : isInputDev d = true
        · refine ⟨by simp [detect_input_device_types, hd], ?_⟩
          intro v hv
          simp [detect_input_device_types, hd] at hv
          simpa [hv] using hd
        · rw [Bool.not_eq_true] at hd
          rcases hf : List.find? (fun x => isInputDev x.1.1) (((d, circ), r) :: rest)
            with _ | e
          · have hdet : detect_input_device_types (((d, circ), r) :: rest)
                = EVOK_INPUT_DEVICE_TYPES := by
              simp [detect_input_device_types, hd, hf]
            rw [hdet]
            exact ⟨by decide, by decide⟩
          · have hdet : detect_input_device_types (((d, circ), r) :: rest)
                = [e.1.1] := by
              simp [detect_input_device_types, hd, hf]
            rw [hdet]
            refine ⟨by simp, ?_⟩
            intro v hv
            simp at hv
            have he := List.find?_some hf
            simpa [hv] using he
  · intro h
    cases c with
    | nil => rfl
    | cons p rest =>
        obtain ⟨⟨d, circ⟩, r⟩ := p
        have hd : isInputDev d = false := h ((d, circ), r) (List.mem_cons_self _ _)
        have hf : List.find? (fun x => isInputDev x.1.1) (((d, circ), r) :: rest)
            = none := by
          rw [List.find?_eq_none]
          intro x hx
          simp [h x hx]
        simp [detect_input_device_types, hd, hf]
  · intro k r rest hc hk
    subst hc
    obtain ⟨d, circ⟩ := k
    simp only at hk
    simp [detect_input_device_types, hk]
  · intro k r rest e hc hk hf
    subst hc
    obtain ⟨d, circ⟩ := k
    simp only at hk hf
    simp [detect_input_device_types, hk, hf]

theorem C10_detect_input_device_types_spec_witness :
    detect_input_device_types
        [((SVal.s "relay", SVal.s "1"), []), ((SVal.s "di", SVal.s "2"), [])]
      = [SVal.s "di"] :=
  (C10_detect_input_device_types_spec
      [((SVal.s "relay", SVal.s "1"), []), ((SVal.s "di", SVal.s "2"), [])]).2.2.2
    (SVal.s "relay", SVal.s "1") [] [((SVal.s "di", SVal.s "2"), [])]
    ((SVal.s "di", SVal.s "2"), []) rfl rfl rfl
